import Mathlib

/-!
Verification development for the dev-mcp query server.

This file gives a shallow embedding of the shared pipeline of the server
(timeout resolution, JSON serialization, the two response-formatter variants,
and the per-backend query handlers) and proves properties of that embedding.

Modelling conventions:
* JavaScript numbers are modelled by `JsNum` (NaN, the two infinities, or a
  finite rational); `Math.trunc` truncates toward zero.
* JavaScript strings are modelled by Lean `String`s restricted to the basic
  multilingual plane, so the JS `length` (UTF-16 code units) coincides with
  `String.length` (characters).  UTF-8 byte length is a separate function.
* JSON values are the nested inductive `JsonVal`; `stringify` models
  `JSON.stringify` (compact) and `stringifyPretty` models
  `JSON.stringify(v, null, 2)`.
* Side effects are made explicit: the result-spool write performed by
  `writeResultFile` is returned as an effect list (tool name and payload),
  and the file path that `writeResultFile` would return is passed in as a
  parameter.  Logging to stderr and the opportunistic `cleanupOldFiles`
  sweep have no observable effect on any response and are omitted.
* Exceptions are modelled with `Except`: a `.error` escaping a definition
  models an exception propagating past that code's boundary.
-/

namespace DevMcp

/-! ### JavaScript numbers -/

/-- A JavaScript number: NaN, one of the infinities, or a finite value. -/
inductive JsNum where
  | nan
  | posInf
  | negInf
  | finite (q : ℚ)
  deriving DecidableEq

/-- `Number.isNaN`. -/
def JsNum.isNaN : JsNum → Bool
  | .nan => true
  | _ => false

/-- Truncation toward zero of a rational, as performed by `Math.trunc`
on finite values. -/
def truncQ (q : ℚ) : ℤ := Int.tdiv q.num (q.den : ℤ)

/-- `Math.trunc`: truncates finite values toward zero and is the identity
on NaN and the infinities. -/
def jsTrunc : JsNum → JsNum
  | .finite q => .finite ((truncQ q : ℤ) : ℚ)
  | x => x

/-- The JavaScript `<` comparison on numbers (false whenever an operand
is NaN). -/
def jsLt : JsNum → JsNum → Bool
  | .nan, _ => false
  | _, .nan => false
  | .negInf, .negInf => false
  | .negInf, _ => true
  | _, .negInf => false
  | .posInf, _ => false
  | _, .posInf => true
  | .finite a, .finite b => a < b

/-- Rendering of a number by JS string interpolation; only integral values
occur in the code paths modelled here. -/
def numRender (q : ℚ) : String :=
  if q.den = 1 then toString q.num else toString q

/-- `String(n)` for a JS number. -/
def JsNum.render : JsNum → String
  | .nan => "NaN"
  | .posInf => "Infinity"
  | .negInf => "-Infinity"
  | .finite q => numRender q

/-- A possible value of the optional `timeoutMs` argument: absent
(`undefined`), present but not a number, or a number. -/
inductive JsInput where
  | undefined
  | nonNumber
  | number (n : JsNum)
  deriving DecidableEq

/-! ### `src/shared/timeout.ts` -/

def DEFAULT_TIMEOUT_MS : ℚ := 30000
def MIN_TIMEOUT_MS : ℚ := 1000
def MAX_TIMEOUT_MS : ℚ := 300000

/-- `resolveTimeout` from `src/shared/timeout.ts`: default when the input is
not a number or is NaN; otherwise truncate toward zero and clamp into
`[MIN_TIMEOUT_MS, MAX_TIMEOUT_MS]`. -/
def resolveTimeout (timeoutMs : JsInput) : JsNum :=
  match timeoutMs with
  | .undefined => .finite DEFAULT_TIMEOUT_MS
  | .nonNumber => .finite DEFAULT_TIMEOUT_MS
  | .number n =>
    if n.isNaN then .finite DEFAULT_TIMEOUT_MS
    else
      let clamped := jsTrunc n
      if jsLt clamped (.finite MIN_TIMEOUT_MS) then .finite MIN_TIMEOUT_MS
      else if jsLt (.finite MAX_TIMEOUT_MS) clamped then .finite MAX_TIMEOUT_MS
      else clamped

/-! ### JSON values and serialization -/

/-- A JSON value (JS values appearing in result payloads). -/
inductive JsonVal where
  | null
  | bool (b : Bool)
  | num (q : ℚ)
  | str (s : String)
  | arr (xs : List JsonVal)
  | obj (fs : List (String × JsonVal))

/-- A row: an insertion-ordered mapping from column name to value, as a JS
object produced by a backend driver. -/
abbrev Row := List (String × JsonVal)

/-- `JSON.stringify` of NaN or an infinity is `null`; finite numbers embed
as JSON numbers. -/
def jsNumToJson : JsNum → JsonVal
  | .finite q => .num q
  | _ => .null

/-- JS `Array.prototype.join`, also used for template-literal concatenation
of line lists (`lines.join('\n')`). -/
def joinSep (sep : String) : List String → String
  | [] => ""
  | [s] => s
  | s :: rest => s ++ sep ++ joinSep sep rest

/-- Escape one character as `JSON.stringify` does inside string literals. -/
def escChar (c : Char) : List Char :=
  if c = '"' then ['\\', '"']
  else if c = '\\' then ['\\', '\\']
  else if c = '\n' then ['\\', 'n']
  else if c = '\r' then ['\\', 'r']
  else if c = '\t' then ['\\', 't']
  else if c = Char.ofNat 8 then ['\\', 'b']
  else if c = Char.ofNat 12 then ['\\', 'f']
  else if c.toNat < 32 then
    '\\' :: 'u' :: '0' :: '0' :: [Nat.digitChar (c.toNat / 16), Nat.digitChar (c.toNat % 16)]
  else [c]

def escapeChars (l : List Char) : List Char := (l.map escChar).flatten

/-- A JSON string literal: quotes around the escaped contents. -/
def jsonQuote (s : String) : String := "\"" ++ String.mk (escapeChars s.data) ++ "\""

mutual
/-- `JSON.stringify` (compact form, no spacing). -/
def stringify : JsonVal → String
  | .null => "null"
  | .bool true => "true"
  | .bool false => "false"
  | .num q => numRender q
  | .str s => jsonQuote s
  | .arr xs => "[" ++ joinSep "," (stringifyList xs) ++ "]"
  | .obj fs => "\x7b" ++ joinSep "," (stringifyFields fs) ++ "\x7d"

def stringifyList : List JsonVal → List String
  | [] => []
  | v :: vs => stringify v :: stringifyList vs

def stringifyFields : List (String × JsonVal) → List String
  | [] => []
  | (k, v) :: fs => (jsonQuote k ++ ":" ++ stringify v) :: stringifyFields fs
end

def indentStr (n : Nat) : String := String.mk (List.replicate n ' ')

mutual
/-- `JSON.stringify(v, null, 2)`: two-space indented pretty form. -/
def stringifyPretty (ind : Nat) : JsonVal → String
  | .null => "null"
  | .bool true => "true"
  | .bool false => "false"
  | .num q => numRender q
  | .str s => jsonQuote s
  | .arr xs =>
    match xs with
    | [] => "[]"
    | _ :: _ =>
      "[\n" ++ joinSep ",\n" (prettyItems (ind + 2) xs) ++ "\n" ++ indentStr ind ++ "]"
  | .obj fs =>
    match fs with
    | [] => "\x7b\x7d"
    | _ :: _ =>
      "\x7b\n" ++ joinSep ",\n" (prettyFields (ind + 2) fs) ++ "\n" ++ indentStr ind ++ "\x7d"

def prettyItems (ind : Nat) : List JsonVal → List String
  | [] => []
  | v :: vs => (indentStr ind ++ stringifyPretty ind v) :: prettyItems ind vs

def prettyFields (ind : Nat) : List (String × JsonVal) → List String
  | [] => []
  | (k, v) :: fs =>
    (indentStr ind ++ jsonQuote k ++ ": " ++ stringifyPretty ind v) :: prettyFields ind fs
end

mutual
/-- JS `String(value)` coercion for the values that can appear in a cell. -/
def jsString : JsonVal → String
  | .null => "null"
  | .bool true => "true"
  | .bool false => "false"
  | .num q => numRender q
  | .str s => s
  | .arr xs => joinSep "," (jsStringElems xs)
  | .obj _ => "[object Object]"

/-- Elements of `Array.prototype.toString`: null elements render empty. -/
def jsStringElems : List JsonVal → List String
  | [] => []
  | v :: vs =>
    (match v with
     | .null => ""
     | w => jsString w) :: jsStringElems vs
end

/-- Property access `obj[key]` on a parsed JSON value: a field of an
object, `undefined` (`none`) otherwise. -/
def getField : JsonVal → String → Option JsonVal
  | .obj fs, k => List.lookup k fs
  | _, _ => none

/-! ### Shared response shape (`src/shared/formatter.ts`, both variants) -/

/-- The tool response: the single text content block and the error flag. -/
structure ToolResponse where
  text : String
  isError : Bool
  deriving DecidableEq

/-- A metadata value (`Record<string, string | number>`). -/
inductive MetaVal where
  | str (s : String)
  | num (q : ℚ)

def metaRender : MetaVal → String
  | .str s => s
  | .num q => numRender q

def metaToJson : MetaVal → JsonVal
  | .str s => .str s
  | .num q => .num q

/-- The `responseFormat` selector: `'table' | 'json'`. -/
inductive RespFormat where
  | table
  | json
  deriving DecidableEq

/-- The `FormatOptions` input of `formatToolResponse` (identical in both
formatter variants). -/
structure FormatOptions where
  toolName : String
  metadata : List (String × MetaVal)
  rows : List Row
  responseFormat : Option RespFormat
  rawResult : Option JsonVal

/-- `rawResult ?? { metadata, rows }` (identical in both variants). -/
def resultPayload (options : FormatOptions) : JsonVal :=
  options.rawResult.getD
    (.obj [("metadata", .obj (options.metadata.map (fun kv => (kv.1, metaToJson kv.2)))),
           ("rows", .arr (options.rows.map JsonVal.obj))])

/-- The metadata header `**key:** value` entries joined with ` | `
(identical in both variants). -/
def buildMetadataHeader (metadata : List (String × MetaVal)) : String :=
  joinSep " | " (metadata.map (fun kv => "**" ++ kv.1 ++ ":** " ++ metaRender kv.2))

/-- `formatErrorResponse` (identical in both variants): names the backend
and includes the message of the thrown value. -/
inductive ThrownVal where
  | err (name : String) (message : String)
  | other (v : JsonVal)

/-- `error instanceof Error ? error.message : String(error)`. -/
def errMessage : ThrownVal → String
  | .err _ m => m
  | .other v => jsString v

def formatErrorResponse (backendName : String) (error : ThrownVal) : ToolResponse :=
  ⟨backendName ++ " error: " ++ errMessage error, true⟩

/-! ### The capped formatter variant of `src/shared/formatter.ts`
(caps displayed rows at 200 and truncates cells at 80 characters). -/

namespace Capped

def MAX_RESULT_BYTES : Nat := 50 * 1024
def MAX_TABLE_ROWS : Nat := 200
def MAX_CELL_WIDTH : Nat := 80

/-- `truncateCell`: null/undefined become the empty string; any longer
string is cut to 79 characters plus an ellipsis. -/
def truncateCell (value : Option JsonVal) : String :=
  let str := match value with
    | none => ""
    | some .null => ""
    | some v => jsString v
  if MAX_CELL_WIDTH < str.length then
    String.mk (str.data.take (MAX_CELL_WIDTH - 1)) ++ "…"
  else str

/-- `buildMarkdownTable` (capped variant): header and separator from the
first row's keys, at most `maxRows` data rows, and a blank line plus a
summary line when rows were omitted. -/
def buildMarkdownTable (rows : List Row) (maxRows : Nat) : String :=
  match rows with
  | [] => "_No rows returned._"
  | r0 :: _ =>
    let columns := r0.map Prod.fst
    let displayRows := rows.take maxRows
    let header := "| " ++ joinSep " | " columns ++ " |"
    let separator := "| " ++ joinSep " | " (columns.map (fun _ => "---")) ++ " |"
    let body := displayRows.map
      (fun row => "| " ++ joinSep " | " (columns.map (fun col => truncateCell (List.lookup col row))) ++ " |")
    let lines := [header, separator] ++ body
    let lines := if maxRows < rows.length then
        lines ++ ["", "_… and " ++ toString (rows.length - maxRows) ++ " more rows (see full results file)_"]
      else lines
    joinSep "\n" lines

/-- `formatToolResponse` (capped variant).  The returned list records the
`writeResultFile` calls (tool name and payload); `fp` is the path such a
call would return. -/
def formatToolResponse (fp : String) (options : FormatOptions) :
    ToolResponse × List (String × JsonVal) :=
  let toolName := options.toolName
  let rows := options.rows
  let responseFormat := options.responseFormat.getD .table
  let payload := resultPayload options
  let serialized := stringify payload
  let overflows : Bool := decide (MAX_RESULT_BYTES < serialized.length)
  let metaHeader := buildMetadataHeader options.metadata
  match responseFormat with
  | .json =>
    if overflows then
      (⟨metaHeader ++ "\n\nResult too large (" ++ toString serialized.length
          ++ " bytes). Full JSON written to:\n`" ++ fp ++ "`", false⟩,
       [(toolName, payload)])
    else
      (⟨metaHeader ++ "\n\n```json\n" ++ serialized ++ "\n```", false⟩, [])
  | .table =>
    let table := buildMarkdownTable rows MAX_TABLE_ROWS
    if overflows then
      (⟨metaHeader ++ "\n\n" ++ table ++ "\n\nFull results (" ++ toString rows.length
          ++ " rows, " ++ toString serialized.length ++ " bytes) written to:\n`" ++ fp ++ "`", false⟩,
       [(toolName, payload)])
    else
      (⟨metaHeader ++ "\n\n" ++ table, false⟩, [])

end Capped

/-! ### The uncapped formatter variant of `src/shared/formatter.ts`
(no row cap, no cell truncation; otherwise identical). -/

namespace Uncapped

def MAX_RESULT_BYTES : Nat := 50 * 1024

/-- `cellToString`: null/undefined become the empty string; no truncation. -/
def cellToString (value : Option JsonVal) : String :=
  match value with
  | none => ""
  | some .null => ""
  | some v => jsString v

/-- `buildMarkdownTable` (uncapped variant): every row, no summary line. -/
def buildMarkdownTable (rows : List Row) : String :=
  match rows with
  | [] => "_No rows returned._"
  | r0 :: _ =>
    let columns := r0.map Prod.fst
    let header := "| " ++ joinSep " | " columns ++ " |"
    let separator := "| " ++ joinSep " | " (columns.map (fun _ => "---")) ++ " |"
    let body := rows.map
      (fun row => "| " ++ joinSep " | " (columns.map (fun col => cellToString (List.lookup col row))) ++ " |")
    joinSep "\n" ([header, separator] ++ body)

/-- `formatToolResponse` (uncapped variant). -/
def formatToolResponse (fp : String) (options : FormatOptions) :
    ToolResponse × List (String × JsonVal) :=
  let toolName := options.toolName
  let rows := options.rows
  let responseFormat := options.responseFormat.getD .table
  let payload := resultPayload options
  let serialized := stringify payload
  let overflows : Bool := decide (MAX_RESULT_BYTES < serialized.length)
  let metaHeader := buildMetadataHeader options.metadata
  match responseFormat with
  | .json =>
    if overflows then
      (⟨metaHeader ++ "\n\nResult too large (" ++ toString serialized.length
          ++ " bytes). Full JSON written to:\n`" ++ fp ++ "`", false⟩,
       [(toolName, payload)])
    else
      (⟨metaHeader ++ "\n\n```json\n" ++ serialized ++ "\n```", false⟩, [])
  | .table =>
    let table := buildMarkdownTable rows
    if overflows then
      (⟨metaHeader ++ "\n\n" ++ table ++ "\n\nFull results (" ++ toString rows.length
          ++ " rows, " ++ toString serialized.length ++ " bytes) written to:\n`" ++ fp ++ "`", false⟩,
       [(toolName, payload)])
    else
      (⟨metaHeader ++ "\n\n" ++ table, false⟩, [])

end Uncapped

/-! ### `src/tools/postgres.ts` -/

namespace Postgres

/-- The zod-validated input of the `sql_query` tool. -/
structure SqlInput where
  sql : String
  timeoutMs : JsInput
  responseFormat : Option RespFormat

/-- One entry of `result.fields` from the pg driver. -/
structure FieldInfo where
  name : String
  dataTypeID : ℚ

/-- The pg driver's query result. -/
structure PgResult where
  rows : List Row
  rowCount : Option ℚ
  fields : List FieldInfo

/-- The observable steps the handler performs on the pooled connection. -/
inductive PgEvent where
  | connect
  | setStatementTimeout (t : JsNum)
  | runQuery (sql : String)
  | resetStatementTimeout
  | release
  deriving DecidableEq

/-- Environment: the outcomes of the driver calls made by one invocation.
`connect` is the `pool.connect()` outcome, `setTimeout` the
`SET statement_timeout` query, `run` the user query. -/
structure PgEnv where
  connect : Except ThrownVal Unit
  setTimeout : Except ThrownVal Unit
  run : Except ThrownVal PgResult

/-- The `sql_query` tool handler.  `pool.connect()` happens before the
`try` block; the `catch` converts any failure of the `try` body into an
error-flagged response; the `finally` resets the statement timeout
(swallowing any failure of the reset) and releases the client.  The
second component is the trace of connection events, in order. -/
def sqlQueryHandler (input : SqlInput) (env : PgEnv) (fp : String) :
    Except ThrownVal ToolResponse × List PgEvent :=
  let timeout := resolveTimeout input.timeoutMs
  match env.connect with
  | .error e => (.error e, [])
  | .ok _ =>
    let step : Except ThrownVal ToolResponse × List PgEvent :=
      match env.setTimeout with
      | .error e => (.error e, [.setStatementTimeout timeout])
      | .ok _ =>
        match env.run with
        | .error e => (.error e, [.setStatementTimeout timeout, .runQuery input.sql])
        | .ok result =>
          let rowCount : ℚ := result.rowCount.getD (result.rows.length : ℚ)
          let resp := Capped.formatToolResponse fp
            { toolName := "sql_query"
            , metadata := [("Rows", .num rowCount), ("Timeout", .str (timeout.render ++ "ms"))]
            , rows := result.rows
            , responseFormat := input.responseFormat
            , rawResult := some (.obj
                [("fields", .arr (result.fields.map
                    (fun f => .obj [("name", .str f.name), ("dataTypeID", .num f.dataTypeID)]))),
                 ("rowCount", .num rowCount),
                 ("rows", .arr (result.rows.map JsonVal.obj)),
                 ("timeoutMs", jsNumToJson timeout)]) }
          (.ok resp.1, [.setStatementTimeout timeout, .runQuery input.sql])
    let caught : ToolResponse :=
      match step.1 with
      | .error e => formatErrorResponse "PostgreSQL" e
      | .ok r => r
    (.ok caught, .connect :: step.2 ++ [.resetStatementTimeout, .release])

end Postgres

/-! ### `src/tools/graphql.ts` -/

namespace Graphql

/-- The zod-validated input of the `graphql_query` tool. -/
structure GqlInput where
  query : String
  operationName : Option String
  varMap : Option (List (String × JsonVal))  -- the `variables` field (that name is reserved in Lean)
  timeoutMs : JsInput

/-- The response body, by the outcome of `response.text()` and
`JSON.parse`: empty text, text that fails to parse, or a parsed value. -/
inductive BodyModel where
  | empty
  | unparsable
  | parsed (v : JsonVal)

/-- The outcome of the `fetch` call: a thrown value (network failure or
abort) or a response with its `ok` flag, status, status text and body. -/
inductive FetchOutcome where
  | throws (e : ThrownVal)
  | response (ok : Bool) (status : ℚ) (statusText : String) (body : BodyModel)

/-- `error instanceof Error && error.name === 'AbortError'`. -/
def isAbortError : ThrownVal → Bool
  | .err n _ => n = "AbortError"
  | .other _ => false

/-- The `try` body of the handler: parse the body (empty body means an
empty payload object), throw on parse failure, throw when the HTTP
response is not ok, then render the JSON response, flagging GraphQL-level
errors. -/
def graphqlTryBody (timeout : JsNum) (env : FetchOutcome) : Except ThrownVal ToolResponse :=
  match env with
  | .throws e => .error e
  | .response ok status statusText body =>
    let payloadE : Except ThrownVal JsonVal :=
      match body with
      | .empty => .ok (.obj [])
      | .unparsable => .error (.err "Error" "Unable to parse GraphQL response as JSON")
      | .parsed v => .ok v
    match payloadE with
    | .error e => .error e
    | .ok payload =>
      if !ok then
        .error (.err "Error" ("GraphQL request failed (" ++ numRender status ++ "): "
          ++ (if statusText = "" then "Unknown error" else statusText)))
      else
        let errorsOpt := getField payload "errors"
        let hasErrors : Bool :=
          match errorsOpt with
          | some (.arr es) => !es.isEmpty
          | _ => false
        let errCount : Nat :=
          match errorsOpt with
          | some (.arr es) => es.length
          | _ => 0
        let resultJson := stringifyPretty 0 (.obj
          ((match getField payload "data" with
            | none => []
            | some d => [("data", d)])
           ++ (match errorsOpt with
               | none => []
               | some e => [("errors", e)])
           ++ [("timeoutMs", jsNumToJson timeout)]))
        let statusPrefix :=
          if hasErrors then
            "**Errors:** " ++ toString errCount ++ " | **Timeout:** " ++ timeout.render
              ++ "ms\n\nGraphQL returned data with errors."
          else "**Timeout:** " ++ timeout.render ++ "ms"
        .ok ⟨statusPrefix ++ "\n\n```json\n" ++ resultJson ++ "\n```", hasErrors⟩

/-- The `graphql_query` tool handler: the catch block maps an AbortError
to the distinct aborted-after-timeout message and any other thrown value
to a generic backend error response. -/
def graphqlQueryHandler (input : GqlInput) (env : FetchOutcome) : ToolResponse :=
  let timeout := resolveTimeout input.timeoutMs
  match graphqlTryBody timeout env with
  | .ok r => r
  | .error e =>
    if isAbortError e then
      formatErrorResponse "GraphQL" (.err "Error" ("Request aborted after " ++ timeout.render ++ "ms"))
    else formatErrorResponse "GraphQL" e

end Graphql

/-! ### `src/tools/bigquery.ts` and the startup path of `src/index.ts` -/

/-- `String.prototype.startsWith` on character lists. -/
def charsStartWith : List Char → List Char → Bool
  | [], _ => true
  | _ :: _, [] => false
  | a :: as, b :: bs => a = b && charsStartWith as bs

/-- Substring occurrence on character lists. -/
def hasSubstr : List Char → List Char → Bool
  | pat, [] => charsStartWith pat []
  | pat, c :: rest => charsStartWith pat (c :: rest) || hasSubstr pat rest

/-- `String.prototype.includes`. -/
def strIncludes (s pat : String) : Bool := hasSubstr pat.data s.data

namespace Bigquery

/-- Environment: the BigQuery client's behaviour as observed by
`verifyReadOnly`: the `getDatasets` outcome (dataset ids) and the
outcome of a dry-run `createQueryJob` for a given query string. -/
structure BqEnv where
  getDatasets : Except ThrownVal (List String)
  dryRunCreate : String → Except ThrownVal Unit

def writeCheckQuery (datasetId : String) : String :=
  "CREATE TABLE `" ++ datasetId ++ ".__dev_mcp_write_check__` (id INT64)"

def writePermMessage (datasetId : String) : String :=
  "BigQuery service account has write permissions on dataset \x27" ++ datasetId
    ++ "\x27. Use a read-only service account for safety."

/-- `error instanceof Error && error.message.includes('write permissions')`. -/
def isWritePermError : ThrownVal → Bool
  | .err _ m => strIncludes m "write permissions"
  | .other _ => false

/-- `verifyReadOnly`: list one dataset; skip if none; dry-run a
`CREATE TABLE` against it; if the dry run validates, throw the
too-permissive error, which both catch blocks re-raise (recognised by the
`write permissions` substring); any other failure is swallowed and
startup proceeds. -/
def verifyReadOnly (env : BqEnv) : Except ThrownVal Unit :=
  let attempt : Except ThrownVal Unit :=
    match env.getDatasets with
    | .error e => .error e
    | .ok [] => .ok ()
    | .ok (datasetId :: _) =>
      let inner : Except ThrownVal Unit :=
        match env.dryRunCreate (writeCheckQuery datasetId) with
        | .ok _ => .error (.err "Error" (writePermMessage datasetId))
        | .error e => .error e
      match inner with
      | .error e => if isWritePermError e then .error e else .ok ()
      | .ok _ => .ok ()
  match attempt with
  | .error e => if isWritePermError e then .error e else .ok ()
  | .ok _ => .ok ()

/-- The observable startup outcome of `src/index.ts` for a
BigQuery-configured server: `registerBigqueryTools` awaits
`verifyReadOnly` before registering the tool and before the transport is
connected; an error propagates to `start().catch`, which calls
`process.exit(1)`. -/
inductive StartupOutcome where
  | exitedNonzero
  | serving
  deriving DecidableEq

def bigqueryStartup (env : BqEnv) : StartupOutcome :=
  match verifyReadOnly env with
  | .error _ => .exitedNonzero
  | .ok _ => .serving

end Bigquery

/-! ### Specification-side definitions (used to state claims, not taken
from the source). -/

/-- UTF-8 byte length of a string (the spec's "serialized byte length";
the source compares `serialized.length`, which counts UTF-16 code
units). -/
def utf8ByteLength (s : String) : Nat := (s.data.map Char.utf8Size).sum

/-- Split a character list at newline characters. -/
def splitNl : List Char → List (List Char)
  | [] => [[]]
  | c :: cs =>
    match splitNl cs with
    | [] => [[c]]
    | h :: t => if c = '\n' then [] :: h :: t else (c :: h) :: t

/-- The newline-separated lines of a rendered text block. -/
def lineCount (s : String) : Nat := (splitNl s.data).length

/-- The column list of the first row (the canonical column order of a
rendered table). -/
def firstColumns (rows : List Row) : List String :=
  match rows with
  | [] => []
  | r :: _ => r.map Prod.fst

/-! ### General lemmas about the embedding -/

theorem resolveTimeout_finite_clamp (q : ℚ) :
    resolveTimeout (.number (.finite q))
      = .finite ((max 1000 (min 300000 (truncQ q)) : ℤ) : ℚ) := by
  have hlt1 : jsLt (jsTrunc (.finite q)) (.finite MIN_TIMEOUT_MS)
      = decide (((truncQ q : ℤ) : ℚ) < 1000) := by
    simp [jsLt, jsTrunc, MIN_TIMEOUT_MS]
  have hlt2 : jsLt (.finite MAX_TIMEOUT_MS) (jsTrunc (.finite q))
      = decide ((300000 : ℚ) < ((truncQ q : ℤ) : ℚ)) := by
    simp [jsLt, jsTrunc, MAX_TIMEOUT_MS]
  by_cases h1 : truncQ q < 1000
  · have hb : jsLt (jsTrunc (.finite q)) (.finite MIN_TIMEOUT_MS) = true := by
      rw [hlt1]
      simp only [decide_eq_true_eq]
      exact_mod_cast h1
    simp only [resolveTimeout, JsNum.isNaN, hb, if_true, Bool.false_eq_true, if_false]
    have hz : (1000 : ℤ) = max 1000 (min 300000 (truncQ q)) := by omega
    unfold MIN_TIMEOUT_MS
    congr 1
    exact_mod_cast hz
  · have hb : jsLt (jsTrunc (.finite q)) (.finite MIN_TIMEOUT_MS) = false := by
      rw [hlt1]
      simp only [decide_eq_false_iff_not]
      intro hc
      exact h1 (by exact_mod_cast hc)
    by_cases h2 : 300000 < truncQ q
    · have hb2 : jsLt (.finite MAX_TIMEOUT_MS) (jsTrunc (.finite q)) = true := by
        rw [hlt2]
        simp only [decide_eq_true_eq]
        exact_mod_cast h2
      simp only [resolveTimeout, JsNum.isNaN, hb, hb2, Bool.false_eq_true, if_false, if_true]
      have hz : (300000 : ℤ) = max 1000 (min 300000 (truncQ q)) := by omega
      unfold MAX_TIMEOUT_MS
      congr 1
      exact_mod_cast hz
    · have hb2 : jsLt (.finite MAX_TIMEOUT_MS) (jsTrunc (.finite q)) = false := by
        rw [hlt2]
        simp only [decide_eq_false_iff_not]
        intro hc
        exact h2 (by exact_mod_cast hc)
      simp only [resolveTimeout, JsNum.isNaN, hb, hb2, Bool.false_eq_true, if_false]
      simp only [jsTrunc]
      have hz : truncQ q = max 1000 (min 300000 (truncQ q)) := by omega
      congr 1
      exact_mod_cast hz

/-! ### Claims about the Timeout Resolver -/

/-- C3: the claim states that every input that is not a well-formed finite
number (absent, non-numeric, NaN, or infinite) resolves to the default of
30000 ms.  The code only defaults for non-numbers and NaN; the infinities
pass the `typeof`/`isNaN` guard and are clamped.  This counterexample
evaluates the resolver at `+Infinity`: the result is 300000, not the
default 30000, refuting the claim as stated. -/
theorem resolveTimeout_posInf_cex :
    resolveTimeout (.number .posInf) = .finite 300000
      ∧ ¬ resolveTimeout (.number .posInf) = .finite 30000 := by decide

/-- C3 (amended): absent, non-numeric and NaN timeout inputs resolve to the
default of 30000 ms; infinite inputs are instead silently clamped,
`+Infinity` to the maximum 300000 ms and `-Infinity` to the minimum
1000 ms. -/
theorem resolveTimeout_nonfinite_inputs :
    resolveTimeout .undefined = .finite 30000
    ∧ resolveTimeout .nonNumber = .finite 30000
    ∧ resolveTimeout (.number .nan) = .finite 30000
    ∧ resolveTimeout (.number .posInf) = .finite 300000
    ∧ resolveTimeout (.number .negInf) = .finite 1000 := by decide

/-- C7: every resolved timeout lies in [1000, 300000]; `undefined` resolves
to 30000, `-5` to 1000, `999999` to 300000, `1500.7` to 1500; and every
finite input is truncated toward zero and then clamped to the nearer
bound, in-range values passing through unchanged (the max/min equation). -/
theorem resolveTimeout_range_and_clamp :
    (∀ t : JsInput, ∃ m : ℤ,
        resolveTimeout t = .finite (m : ℚ) ∧ 1000 ≤ m ∧ m ≤ 300000)
    ∧ resolveTimeout .undefined = .finite 30000
    ∧ resolveTimeout (.number (.finite (-5))) = .finite 1000
    ∧ resolveTimeout (.number (.finite 999999)) = .finite 300000
    ∧ resolveTimeout (.number (.finite (1500.7 : ℚ))) = .finite 1500
    ∧ (∀ q : ℚ, resolveTimeout (.number (.finite q))
        = .finite ((max 1000 (min 300000 (truncQ q)) : ℤ) : ℚ)) := by
  refine ⟨?_, by decide, by decide, by decide, ?_, resolveTimeout_finite_clamp⟩
  · intro t
    match t with
    | .undefined => exact ⟨30000, by decide, by decide, by decide⟩
    | .nonNumber => exact ⟨30000, by decide, by decide, by decide⟩
    | .number .nan => exact ⟨30000, by decide, by decide, by decide⟩
    | .number .posInf => exact ⟨300000, by decide, by decide, by decide⟩
    | .number .negInf => exact ⟨1000, by decide, by decide, by decide⟩
    | .number (.finite q) =>
      exact ⟨max 1000 (min 300000 (truncQ q)), resolveTimeout_finite_clamp q,
        by omega, by omega⟩
  · have h : (1500.7 : ℚ) = mkRat 15007 10 := by norm_num [mkRat, Rat.normalize]
    rw [h]
    decide

theorem strAppend_assoc (a b c : String) : a ++ (b ++ c) = (a ++ b) ++ c := by
  cases a with
  | mk la =>
    cases b with
    | mk lb =>
      cases c with
      | mk lc =>
        show String.mk (la ++ (lb ++ lc)) = String.mk ((la ++ lb) ++ lc)
        rw [List.append_assoc]

theorem charsStartWith_append (pat l l2 : List Char)
    (h : charsStartWith pat l = true) : charsStartWith pat (l ++ l2) = true := by
  induction pat generalizing l with
  | nil => rfl
  | cons a as ih =>
    cases l with
    | nil => simp [charsStartWith] at h
    | cons b bs =>
      simp only [charsStartWith, Bool.and_eq_true] at h
      simp only [List.cons_append, charsStartWith, Bool.and_eq_true]
      exact ⟨h.1, ih bs h.2⟩

theorem hasSubstr_nil_pat (l : List Char) : hasSubstr [] l = true := by
  induction l with
  | nil => rfl
  | cons c cs ih => simp [hasSubstr, charsStartWith]

theorem hasSubstr_append_left (pat l l2 : List Char)
    (h : hasSubstr pat l = true) : hasSubstr pat (l ++ l2) = true := by
  induction l with
  | nil =>
    cases pat with
    | nil => simpa using hasSubstr_nil_pat l2
    | cons a as => simp [hasSubstr, charsStartWith] at h
  | cons c cs ih =>
    simp only [hasSubstr, Bool.or_eq_true] at h
    rcases h with h | h
    · simp only [List.cons_append, hasSubstr, Bool.or_eq_true]
      exact Or.inl (charsStartWith_append pat (c :: cs) l2 h)
    · simp only [List.cons_append, hasSubstr, Bool.or_eq_true]
      exact Or.inr (ih h)

theorem strIncludes_append_left (s t pat : String)
    (h : strIncludes s pat = true) : strIncludes (s ++ t) pat = true := by
  unfold strIncludes at *
  rw [String.data_append]
  exact hasSubstr_append_left pat.data s.data t.data h

/-! ### Claims about the warehouse (BigQuery) startup check -/

theorem writePermMessage_includes (id : String) :
    Bigquery.isWritePermError (.err "Error" (Bigquery.writePermMessage id)) = true := by
  show strIncludes (Bigquery.writePermMessage id) "write permissions" = true
  unfold Bigquery.writePermMessage
  apply strIncludes_append_left
  apply strIncludes_append_left
  decide

/-- C2: the claim states that (a) if the startup dry-run `CREATE TABLE`
against an existing dataset validates without error, the process exits
nonzero before accepting tool calls, and (b) if no dataset is accessible
or permissions cannot be inspected, the check is skipped with a warning
and startup proceeds.  Part (b) fails as stated: the outer catch re-raises
any inspection failure whose message happens to contain the substring
`write permissions`.  Here the dataset listing itself fails with such a
message, and the process exits nonzero instead of proceeding. -/
theorem bigqueryStartup_sniffing_cex :
    Bigquery.bigqueryStartup
        ⟨.error (.err "Error" "caller does not have write permissions nor read access"),
         fun _ => .error (.err "Error" "denied")⟩ ≠ .serving
    ∧ Bigquery.bigqueryStartup
        ⟨.error (.err "Error" "caller does not have write permissions nor read access"),
         fun _ => .error (.err "Error" "denied")⟩ = .exitedNonzero := by
  decide

/-- C2 (amended): if the dry-run `CREATE TABLE` against a listed dataset
validates without error, startup aborts with the nonzero-exit outcome
(before the transport ever connects); if the dataset listing returns no
datasets, or fails with an error not containing the `write permissions`
phrase (the substring the code uses to recognise its own fatal error),
the check is skipped and startup proceeds. -/
theorem bigqueryStartup_readonly_check (env : Bigquery.BqEnv) :
    (∀ id rest, env.getDatasets = .ok (id :: rest) →
       env.dryRunCreate (Bigquery.writeCheckQuery id) = .ok () →
       Bigquery.bigqueryStartup env = .exitedNonzero)
    ∧ (env.getDatasets = .ok [] → Bigquery.bigqueryStartup env = .serving)
    ∧ (∀ e, env.getDatasets = .error e → Bigquery.isWritePermError e = false →
       Bigquery.bigqueryStartup env = .serving) := by
  refine ⟨?_, ?_, ?_⟩
  · intro id rest h1 h2
    simp [Bigquery.bigqueryStartup, Bigquery.verifyReadOnly, h1, h2,
      writePermMessage_includes id]
  · intro h
    simp [Bigquery.bigqueryStartup, Bigquery.verifyReadOnly, h]
  · intro e h hw
    simp [Bigquery.bigqueryStartup, Bigquery.verifyReadOnly, h, hw]

theorem bigqueryStartup_readonly_check_witness :
    Bigquery.bigqueryStartup ⟨.ok ["analytics"], fun _ => .ok ()⟩ = .exitedNonzero
    ∧ Bigquery.bigqueryStartup ⟨.ok [], fun _ => .ok ()⟩ = .serving :=
  ⟨(bigqueryStartup_readonly_check ⟨.ok ["analytics"], fun _ => .ok ()⟩).1 "analytics" [] rfl rfl,
   (bigqueryStartup_readonly_check ⟨.ok [], fun _ => .ok ()⟩).2.1 rfl⟩

/-! ### Claims about the relational (PostgreSQL) handler -/

/-- C6: the claim states that on every backend-call failure the handler
returns an error-flagged response and never raises past its own boundary.
`pool.connect()` is evaluated before the `try` block, so a
connection-acquisition failure (here: connection refused, a network
failure) propagates out of the handler as an exception instead of being
converted to a response, refuting the claim as stated. -/
theorem sqlQueryHandler_connect_raise_cex :
    (Postgres.sqlQueryHandler ⟨"SELECT 1", .undefined, none⟩
        ⟨.error (.err "Error" "connection refused"), .ok (), .ok ⟨[], none, []⟩⟩
        "/tmp/r.json").1
      = .error (.err "Error" "connection refused") := rfl

/-- C6 (amended): for every failure raised after the connection has been
acquired (the relational backend) or anywhere within the request attempt
(the graph backend: a value thrown by the fetch other than an abort, a
response body that fails to parse as JSON, or a non-ok HTTP response —
the abort case gets its own message), the handler returns a normal
response with the error flag set whose text names the backend and
includes the underlying error message; no such failure escapes the
handler (the graph handler is total, and the relational result is `.ok`).
A relational connection-acquisition failure, by contrast, propagates. -/
theorem adapterErrorResponses
    (input : Postgres.SqlInput) (env : Postgres.PgEnv) (fp : String)
    (ginput : Graphql.GqlInput) (e : ThrownVal) :
    (env.connect = .ok () →
       (∃ r, (Postgres.sqlQueryHandler input env fp).1 = .ok r)
       ∧ (env.setTimeout = .error e →
           (Postgres.sqlQueryHandler input env fp).1
             = .ok ⟨"PostgreSQL error: " ++ errMessage e, true⟩)
       ∧ (env.setTimeout = .ok () → env.run = .error e →
           (Postgres.sqlQueryHandler input env fp).1
             = .ok ⟨"PostgreSQL error: " ++ errMessage e, true⟩))
    ∧ (Graphql.isAbortError e = false →
       Graphql.graphqlQueryHandler ginput (.throws e)
         = ⟨"GraphQL error: " ++ errMessage e, true⟩)
    ∧ (∀ (ok : Bool) (status : ℚ) (statusText : String),
       Graphql.graphqlQueryHandler ginput (.response ok status statusText .unparsable)
         = ⟨"GraphQL error: " ++ "Unable to parse GraphQL response as JSON", true⟩)
    ∧ (∀ (status : ℚ) (statusText : String),
       Graphql.graphqlQueryHandler ginput (.response false status statusText .empty)
         = ⟨"GraphQL error: " ++ ("GraphQL request failed (" ++ numRender status ++ "): "
             ++ (if statusText = "" then "Unknown error" else statusText)), true⟩)
    ∧ (∀ (status : ℚ) (statusText : String) (v : JsonVal),
       Graphql.graphqlQueryHandler ginput (.response false status statusText (.parsed v))
         = ⟨"GraphQL error: " ++ ("GraphQL request failed (" ++ numRender status ++ "): "
             ++ (if statusText = "" then "Unknown error" else statusText)), true⟩) := by
  have habort : ∀ m, Graphql.isAbortError (.err "Error" m) = false := fun m => rfl
  refine ⟨?_, ?_, ?_, ?_, ?_⟩
  · intro hc
    have hok : ∃ r, (Postgres.sqlQueryHandler input env fp).1 = Except.ok r :=
      ⟨_, by simp only [Postgres.sqlQueryHandler, hc]; rfl⟩
    refine ⟨hok, ?_, ?_⟩
    · intro hst
      simp [Postgres.sqlQueryHandler, hc, hst, formatErrorResponse]
    · intro hst hrun
      simp [Postgres.sqlQueryHandler, hc, hst, hrun, formatErrorResponse]
  · intro hab
    simp [Graphql.graphqlQueryHandler, Graphql.graphqlTryBody, hab, formatErrorResponse]
  · intro ok status statusText
    simp [Graphql.graphqlQueryHandler, Graphql.graphqlTryBody, habort,
      formatErrorResponse, errMessage]
  · intro status statusText
    simp [Graphql.graphqlQueryHandler, Graphql.graphqlTryBody, habort,
      formatErrorResponse, errMessage]
  · intro status statusText v
    simp [Graphql.graphqlQueryHandler, Graphql.graphqlTryBody, habort,
      formatErrorResponse, errMessage]

theorem adapterErrorResponses_witness :
    (Postgres.sqlQueryHandler ⟨"SELECT 1", .undefined, none⟩
        ⟨.ok (), .ok (), .error (.err "Error" "syntax error at or near FROM")⟩ "/tmp/r.json").1
      = .ok ⟨"PostgreSQL error: " ++ errMessage (.err "Error" "syntax error at or near FROM"), true⟩
    ∧ Graphql.graphqlQueryHandler ⟨"query Q", none, none, .undefined⟩
        (.throws (.err "TypeError" "fetch failed"))
      = ⟨"GraphQL error: " ++ errMessage (.err "TypeError" "fetch failed"), true⟩
    ∧ Graphql.graphqlQueryHandler ⟨"query Q", none, none, .undefined⟩
        (.response true 200 "OK" .unparsable)
      = ⟨"GraphQL error: " ++ "Unable to parse GraphQL response as JSON", true⟩
    ∧ Graphql.graphqlQueryHandler ⟨"query Q", none, none, .undefined⟩
        (.response false 500 "Internal Server Error" (.parsed (.obj [])))
      = ⟨"GraphQL error: " ++ ("GraphQL request failed (" ++ numRender 500 ++ "): "
          ++ (if ("Internal Server Error" : String) = "" then "Unknown error"
              else "Internal Server Error")), true⟩ :=
  ⟨((adapterErrorResponses ⟨"SELECT 1", .undefined, none⟩
      ⟨.ok (), .ok (), .error (.err "Error" "syntax error at or near FROM")⟩ "/tmp/r.json"
      ⟨"query Q", none, none, .undefined⟩
      (.err "Error" "syntax error at or near FROM")).1 rfl).2.2 rfl rfl,
   (adapterErrorResponses ⟨"SELECT 1", .undefined, none⟩
      ⟨.ok (), .ok (), .error (.err "Error" "syntax error at or near FROM")⟩ "/tmp/r.json"
      ⟨"query Q", none, none, .undefined⟩
      (.err "TypeError" "fetch failed")).2.1 (by decide),
   (adapterErrorResponses ⟨"SELECT 1", .undefined, none⟩
      ⟨.ok (), .ok (), .error (.err "Error" "syntax error at or near FROM")⟩ "/tmp/r.json"
      ⟨"query Q", none, none, .undefined⟩
      (.err "TypeError" "fetch failed")).2.2.1 true 200 "OK",
   (adapterErrorResponses ⟨"SELECT 1", .undefined, none⟩
      ⟨.ok (), .ok (), .error (.err "Error" "syntax error at or near FROM")⟩ "/tmp/r.json"
      ⟨"query Q", none, none, .undefined⟩
      (.err "TypeError" "fetch failed")).2.2.2.2 500 "Internal Server Error" (.obj [])⟩

/-- C8: the claim states that every invocation performs acquire → set
timeout → execute → reset → release, completing reset-and-release on
every exit path.  When `pool.connect()` itself fails, the handler exits
without acquiring a client, and no release (nor reset) happens on that
path, refuting the universally quantified claim. -/
theorem sqlQueryHandler_missing_release_cex :
    Postgres.PgEvent.release ∉
      (Postgres.sqlQueryHandler ⟨"SELECT 1", .undefined, none⟩
        ⟨.error (.err "Error" "timeout exceeded when trying to connect"),
         .ok (), .ok ⟨[], none, []⟩⟩ "/tmp/r.json").2 := by
  decide

/-- C8 (amended): on every invocation in which the connection is
acquired, the handler's steps happen in the strict order acquire, set the
server-side statement timeout to the resolved value, execute the query
(only if the set succeeded), reset the statement timeout, release the
connection — and the trailing reset-and-release pair happens on every
such path, whether execution succeeds or fails. -/
theorem sqlQueryHandler_step_order (input : Postgres.SqlInput) (env : Postgres.PgEnv)
    (fp : String) (h : env.connect = .ok ()) :
    (Postgres.sqlQueryHandler input env fp).2
      = .connect :: .setStatementTimeout (resolveTimeout input.timeoutMs)
          :: ((match env.setTimeout with
               | .ok _ => [.runQuery input.sql]
               | .error _ => ([] : List Postgres.PgEvent))
              ++ [.resetStatementTimeout, .release]) := by
  rcases hst : env.setTimeout with e | u
  · simp [Postgres.sqlQueryHandler, h, hst]
  · rcases hrun : env.run with e | res <;> simp [Postgres.sqlQueryHandler, h, hst, hrun]

theorem sqlQueryHandler_step_order_witness :
    (Postgres.sqlQueryHandler ⟨"SELECT 1", .undefined, none⟩
        ⟨.ok (), .ok (), .ok ⟨[], none, []⟩⟩ "/tmp/r.json").2
      = [.connect, .setStatementTimeout (.finite 30000), .runQuery "SELECT 1",
         .resetStatementTimeout, .release] := by
  have h := sqlQueryHandler_step_order ⟨"SELECT 1", .undefined, none⟩
      ⟨.ok (), .ok (), .ok ⟨[], none, []⟩⟩ "/tmp/r.json" rfl
  simpa [resolveTimeout, DEFAULT_TIMEOUT_MS] using h

/-! ### Claims about the Response Formatter -/

theorem capped_format_parts (options : FormatOptions) (fp : String) :
    (Capped.formatToolResponse fp options).2
      = (if Capped.MAX_RESULT_BYTES < (stringify (resultPayload options)).length
         then [(options.toolName, resultPayload options)] else [])
    ∧ (Capped.formatToolResponse fp options).1.isError = false := by
  by_cases hov : Capped.MAX_RESULT_BYTES < (stringify (resultPayload options)).length
  · rcases hrf : options.responseFormat.getD RespFormat.table <;>
      simp [Capped.formatToolResponse, hrf, hov]
  · rcases hrf : options.responseFormat.getD RespFormat.table <;>
      simp [Capped.formatToolResponse, hrf, hov]

/-- C1 (amended): the inline-vs-spool decision of the capped formatter is
exactly: spool (one `writeResultFile` call, with the tool name and the
result payload) if and only if the serialized string length — in UTF-16
code units, which is what `serialized.length` counts, so characters here,
not UTF-8 bytes — exceeds 51200; a payload serializing to exactly 51200
units is inlined and 51201 units spools; the same single comparison
drives both table mode and json mode, and the error flag is false in all
four outcomes. -/
theorem formatToolResponse_spool_gate (options : FormatOptions) (fp : String) :
    ((Capped.formatToolResponse fp options).2
       = (if Capped.MAX_RESULT_BYTES < (stringify (resultPayload options)).length
          then [(options.toolName, resultPayload options)] else []))
    ∧ (Capped.formatToolResponse fp options).1.isError = false
    ∧ (Capped.formatToolResponse fp { options with responseFormat := some .table }).2
       = (Capped.formatToolResponse fp { options with responseFormat := some .json }).2 :=
  ⟨(capped_format_parts options fp).1, (capped_format_parts options fp).2,
    ((capped_format_parts { options with responseFormat := some .table } fp).1).trans
      ((capped_format_parts { options with responseFormat := some .json } fp).1).symm⟩

def euroStr : String := String.mk (List.replicate 20000 '€')

def euroOptions : FormatOptions :=
  { toolName := "clickhouse_query"
  , metadata := []
  , rows := []
  , responseFormat := some .json
  , rawResult := some (.str euroStr) }

theorem escChar_euro : escChar '€' = ['€'] := by decide

theorem escapeChars_cons (c : Char) (l : List Char) :
    escapeChars (c :: l) = escChar c ++ escapeChars l := by
  simp [escapeChars]

theorem escapeChars_replicate_euro (n : Nat) :
    escapeChars (List.replicate n '€') = List.replicate n '€' := by
  induction n with
  | zero => rfl
  | succ k ih =>
    rw [List.replicate_succ, escapeChars_cons, escChar_euro, ih, ← List.replicate_succ]
    rfl

theorem stringify_euroOptions :
    stringify (resultPayload euroOptions)
      = "\"" ++ String.mk (List.replicate 20000 '€') ++ "\"" := by
  have h1 : resultPayload euroOptions = .str euroStr := rfl
  rw [h1]
  show jsonQuote euroStr = _
  unfold jsonQuote
  rw [show euroStr.data = List.replicate 20000 '€' from rfl, escapeChars_replicate_euro]

theorem euro_serialized_length :
    (stringify (resultPayload euroOptions)).length = 20002 := by
  rw [stringify_euroOptions]
  show (("\"" ++ String.mk (List.replicate 20000 '€') ++ "\"").data).length = 20002
  rw [String.data_append, String.data_append,
    show ("\"" : String).data = ['"'] from rfl,
    show (String.mk (List.replicate 20000 '€')).data = List.replicate 20000 '€' from rfl,
    List.length_append, List.length_append, List.length_replicate]
  decide

theorem euro_serialized_bytes :
    utf8ByteLength (stringify (resultPayload euroOptions)) = 60002 := by
  rw [stringify_euroOptions]
  unfold utf8ByteLength
  rw [String.data_append, String.data_append]
  rw [show ("\"" : String).data = ['"'] from rfl,
      show (String.mk (List.replicate 20000 '€')).data = List.replicate 20000 '€' from rfl]
  rw [List.map_append, List.map_append, List.map_replicate]
  rw [show Char.utf8Size '€' = 3 from by decide, show ['"'].map Char.utf8Size = [1] from by decide]
  rw [List.sum_append, List.sum_append, List.sum_replicate]
  simp [smul_eq_mul]

/-- C1: the claim states that the spool decision compares the serialized
BYTE length of the payload against 51200 and spools exactly when the byte
length exceeds it.  The code compares `serialized.length`, which counts
UTF-16 code units, not bytes.  For a payload of 20000 three-byte
characters the serialization is 60002 UTF-8 bytes — over the budget, so
the claim requires spooling — yet its string length is 20002, so the
formatter inlines it and performs no spool write. -/
theorem formatToolResponse_byte_budget_cex :
    (Capped.formatToolResponse "/tmp/r.json" euroOptions).2 = []
    ∧ 51200 < utf8ByteLength (stringify (resultPayload euroOptions)) := by
  constructor
  · rw [(capped_format_parts euroOptions "/tmp/r.json").1, euro_serialized_length]
    norm_num [Capped.MAX_RESULT_BYTES]
  · rw [euro_serialized_bytes]
    norm_num

theorem truncateCell_eq (v : Option JsonVal)
    (h : (Uncapped.cellToString v).length ≤ 80) :
    Capped.truncateCell v = Uncapped.cellToString v := by
  cases v with
  | none =>
    simp [Capped.truncateCell, Uncapped.cellToString, Capped.MAX_CELL_WIDTH]
  | some w =>
    cases w <;>
      (simp only [Capped.truncateCell, Uncapped.cellToString, Capped.MAX_CELL_WIDTH] at h ⊢
       rw [if_neg (by omega)])

theorem tables_eq (rows : List Row) (h200 : rows.length ≤ 200)
    (hc : ∀ r ∈ rows, ∀ c ∈ firstColumns rows,
       (Uncapped.cellToString (List.lookup c r)).length ≤ 80) :
    Capped.buildMarkdownTable rows Capped.MAX_TABLE_ROWS = Uncapped.buildMarkdownTable rows := by
  rw [show Capped.MAX_TABLE_ROWS = 200 from rfl]
  cases rows with
  | nil => rfl
  | cons r0 rest =>
    have hmap : (r0 :: rest).map
        (fun row => "| " ++ joinSep " | "
          ((r0.map Prod.fst).map (fun col => Capped.truncateCell (List.lookup col row))) ++ " |")
        = (r0 :: rest).map
        (fun row => "| " ++ joinSep " | "
          ((r0.map Prod.fst).map (fun col => Uncapped.cellToString (List.lookup col row))) ++ " |") := by
      apply List.map_congr_left
      intro r hr
      have hcells : ((r0.map Prod.fst).map (fun col => Capped.truncateCell (List.lookup col r)))
          = ((r0.map Prod.fst).map (fun col => Uncapped.cellToString (List.lookup col r))) := by
        apply List.map_congr_left
        intro c hcm
        exact truncateCell_eq _ (hc r hr c (by simpa [firstColumns] using hcm))
      rw [hcells]
    simp only [Capped.buildMarkdownTable, Uncapped.buildMarkdownTable]
    rw [List.take_of_length_le h200, if_neg (by omega), hmap]

/-- C5: the two formatter variants return identical responses (text, flag
and spool effects) on every json-mode input, and on every table-mode input
with at most 200 rows all of whose looked-up cells stringify to at most 80
characters; by contraposition they can differ only on inputs that trigger
the 200-row cap or the 80-character cell truncation. -/
theorem formatter_variants_agree (options : FormatOptions) (fp : String) :
    (options.responseFormat.getD .table = .json →
       Capped.formatToolResponse fp options = Uncapped.formatToolResponse fp options)
    ∧ (options.responseFormat.getD .table = .table →
       options.rows.length ≤ 200 →
       (∀ r ∈ options.rows, ∀ c ∈ firstColumns options.rows,
          (Uncapped.cellToString (List.lookup c r)).length ≤ 80) →
       Capped.formatToolResponse fp options = Uncapped.formatToolResponse fp options) := by
  constructor
  · intro hj
    simp only [Capped.formatToolResponse, Uncapped.formatToolResponse, hj,
      Capped.MAX_RESULT_BYTES, Uncapped.MAX_RESULT_BYTES]
  · intro ht h200 hc
    have htab := tables_eq options.rows h200 hc
    simp only [Capped.formatToolResponse, Uncapped.formatToolResponse, ht,
      Capped.MAX_RESULT_BYTES, Uncapped.MAX_RESULT_BYTES, htab]

theorem formatter_variants_agree_witness :
    Capped.formatToolResponse "/tmp/r.json"
        ⟨"sql_query", [("Rows", .num 1)], [[("a", .str "x")]], none, none⟩
      = Uncapped.formatToolResponse "/tmp/r.json"
        ⟨"sql_query", [("Rows", .num 1)], [[("a", .str "x")]], none, none⟩ :=
  (formatter_variants_agree
      ⟨"sql_query", [("Rows", .num 1)], [[("a", .str "x")]], none, none⟩ "/tmp/r.json").2
    rfl (by decide) (by decide)

/-! ### Line counting for the rendered table -/

theorem splitNl_ne_nil (l : List Char) : splitNl l ≠ [] := by
  cases l with
  | nil => simp [splitNl]
  | cons c cs =>
    simp only [splitNl]
    rcases h : splitNl cs with _ | ⟨h', t⟩
    · simp
    · by_cases hc : c = '\n' <;> simp [hc]

theorem splitNl_no_nl (l : List Char) (h : '\n' ∉ l) : splitNl l = [l] := by
  induction l with
  | nil => rfl
  | cons c cs ih =>
    have hc : c ≠ '\n' := by intro e; exact h (by simp [e])
    have hcs : '\n' ∉ cs := by intro m; exact h (by simp [m])
    simp [splitNl, ih hcs, hc]

theorem splitNl_append (l1 l2 : List Char) (h : '\n' ∉ l1) :
    splitNl (l1 ++ '\n' :: l2) = l1 :: splitNl l2 := by
  induction l1 with
  | nil =>
    simp only [List.nil_append, splitNl]
    rcases hs : splitNl l2 with _ | ⟨h', t⟩
    · exact absurd hs (splitNl_ne_nil l2)
    · simp
  | cons c cs ih =>
    have hc : c ≠ '\n' := by intro e; exact h (by simp [e])
    have hcs : '\n' ∉ cs := by intro m; exact h (by simp [m])
    have step : splitNl (c :: (cs ++ '\n' :: l2))
        = match splitNl (cs ++ '\n' :: l2) with
          | [] => [[c]]
          | h' :: t => if c = '\n' then [] :: h' :: t else (c :: h') :: t := rfl
    rw [List.cons_append, step, ih hcs]
    simp [hc]

theorem splitNl_joinSep (pieces : List String) (hne : pieces ≠ [])
    (h : ∀ p ∈ pieces, '\n' ∉ p.data) :
    splitNl (joinSep "\n" pieces).data = pieces.map String.data := by
  induction pieces with
  | nil => exact absurd rfl hne
  | cons p rest ih =>
    cases rest with
    | nil =>
      simp [joinSep, splitNl_no_nl p.data (h p (by simp))]
    | cons q rest' =>
      have hstep : joinSep "\n" (p :: q :: rest') = p ++ "\n" ++ joinSep "\n" (q :: rest') := rfl
      rw [hstep]
      have hdata : (p ++ "\n" ++ joinSep "\n" (q :: rest')).data
          = p.data ++ '\n' :: (joinSep "\n" (q :: rest')).data := by
        rw [String.data_append, String.data_append]
        simp
      rw [hdata, splitNl_append _ _ (h p (by simp))]
      rw [ih (by simp) (fun x hx => h x (by simp [hx]))]
      simp

theorem noNl_append (s t : String) (hs : '\n' ∉ s.data) (ht : '\n' ∉ t.data) :
    '\n' ∉ (s ++ t).data := by
  rw [String.data_append]
  intro hmem
  rcases List.mem_append.mp hmem with hm | hm
  · exact hs hm
  · exact ht hm

theorem noNl_joinSep (sep : String) (hsep : '\n' ∉ sep.data) :
    ∀ (l : List String), (∀ p ∈ l, '\n' ∉ p.data) → '\n' ∉ (joinSep sep l).data
  | [], _ => by simp [joinSep]
  | [s], h => by simpa [joinSep] using h s (by simp)
  | s :: s2 :: rest2, h => by
    have hrec := noNl_joinSep sep hsep (s2 :: rest2) (fun p hp => h p (by simp [hp]))
    have hstep : joinSep sep (s :: s2 :: rest2) = s ++ sep ++ joinSep sep (s2 :: rest2) := rfl
    rw [hstep]
    exact noNl_append _ _ (noNl_append _ _ (h s (by simp)) hsep) hrec

theorem digitChar_ne_nl (n : Nat) : Nat.digitChar n ≠ '\n' := by
  rcases Nat.lt_or_ge n 16 with h | h
  · interval_cases n <;> decide
  · unfold Nat.digitChar
    iterate 16 rw [if_neg (by omega)]
    decide

theorem toDigitsCore_ne_nl (fuel : Nat) : ∀ (n : Nat) (acc : List Char),
    (∀ c ∈ acc, c ≠ '\n') → ∀ c ∈ Nat.toDigitsCore 10 fuel n acc, c ≠ '\n' := by
  induction fuel with
  | zero =>
    intro n acc hacc c hc
    simp only [Nat.toDigitsCore] at hc
    exact hacc c hc
  | succ k ih =>
    intro n acc hacc c hc
    simp only [Nat.toDigitsCore] at hc
    have hext : ∀ d ∈ Nat.digitChar (n % 10) :: acc, d ≠ '\n' := by
      intro d hd
      rcases List.mem_cons.mp hd with rfl | hd'
      · exact digitChar_ne_nl _
      · exact hacc d hd'
    split at hc
    · exact hext c hc
    · exact ih (n / 10) (Nat.digitChar (n % 10) :: acc) hext c hc

theorem natRepr_ne_nl (n : Nat) : '\n' ∉ (Nat.repr n).data := by
  intro hmem
  have hd : (Nat.repr n).data = Nat.toDigitsCore 10 (n + 1) n [] := rfl
  rw [hd] at hmem
  exact toDigitsCore_ne_nl (n + 1) n [] (by simp) '\n' hmem rfl

theorem table_lineCount (r0 : Row) (rest : List Row) (maxRows : Nat)
    (hcols : ∀ c ∈ firstColumns (r0 :: rest), '\n' ∉ c.data)
    (hcells : ∀ r ∈ r0 :: rest, ∀ c ∈ firstColumns (r0 :: rest),
        '\n' ∉ (Capped.truncateCell (List.lookup c r)).data) :
    lineCount (Capped.buildMarkdownTable (r0 :: rest) maxRows)
      = 2 + min maxRows (r0 :: rest).length
          + (if maxRows < (r0 :: rest).length then 2 else 0) := by
  have hcols' : ∀ c ∈ r0.map Prod.fst, '\n' ∉ c.data := by
    simpa [firstColumns] using hcols
  have hsep2 : '\n' ∉ (" | " : String).data := by decide
  have hheader : '\n' ∉ ("| " ++ joinSep " | " (r0.map Prod.fst) ++ " |").data :=
    noNl_append _ _
      (noNl_append _ _ (by decide) (noNl_joinSep _ hsep2 _ hcols')) (by decide)
  have hsepline : '\n' ∉ ("| " ++ joinSep " | " ((r0.map Prod.fst).map (fun _ => "---")) ++ " |").data := by
    refine noNl_append _ _ (noNl_append _ _ (by decide) (noNl_joinSep _ hsep2 _ ?_)) (by decide)
    intro p hp
    rcases List.mem_map.mp hp with ⟨c, _, rfl⟩
    decide
  have hbody : ∀ s ∈ (List.take maxRows (r0 :: rest)).map
      (fun row => "| " ++ joinSep " | "
        ((r0.map Prod.fst).map (fun col => Capped.truncateCell (List.lookup col row))) ++ " |"),
      '\n' ∉ s.data := by
    intro s hs
    rcases List.mem_map.mp hs with ⟨row, hrow, rfl⟩
    have hrow' : row ∈ r0 :: rest := List.take_subset _ _ hrow
    refine noNl_append _ _ (noNl_append _ _ (by decide) (noNl_joinSep _ hsep2 _ ?_)) (by decide)
    intro p hp
    rcases List.mem_map.mp hp with ⟨c, hc, rfl⟩
    exact hcells row hrow' c (by simpa [firstColumns] using hc)
  have hsummary : '\n' ∉ (("_… and " ++ toString ((r0 :: rest).length - maxRows)
      ++ " more rows (see full results file)_") : String).data := by
    refine noNl_append _ _ (noNl_append _ _ (by decide) ?_) (by decide)
    exact natRepr_ne_nl _
  have hall1 : ∀ p ∈ ["| " ++ joinSep " | " (r0.map Prod.fst) ++ " |",
      "| " ++ joinSep " | " ((r0.map Prod.fst).map (fun _ => "---")) ++ " |"]
      ++ (List.take maxRows (r0 :: rest)).map
        (fun row => "| " ++ joinSep " | "
          ((r0.map Prod.fst).map (fun col => Capped.truncateCell (List.lookup col row))) ++ " |"),
      '\n' ∉ p.data := by
    intro p hp
    rcases List.mem_append.mp hp with hp | hp
    · rcases List.mem_cons.mp hp with rfl | hp
      · exact hheader
      rcases List.mem_cons.mp hp with rfl | hp
      · exact hsepline
      · exact absurd hp (List.not_mem_nil p)
    · exact hbody p hp
  simp only [Capped.buildMarkdownTable]
  by_cases hover : maxRows < (r0 :: rest).length
  · rw [if_pos hover]
    unfold lineCount
    rw [splitNl_joinSep _ (by simp) (by
      intro p hp
      rcases List.mem_append.mp hp with hp | hp
      · exact hall1 p hp
      · rcases List.mem_cons.mp hp with rfl | hp
        · decide
        rcases List.mem_cons.mp hp with rfl | hp
        · exact hsummary
        · exact absurd hp (List.not_mem_nil p))]
    rw [List.length_map]
    simp only [List.length_append, List.length_map, List.length_take, List.length_cons,
      List.length_nil]
    rw [if_pos (by simpa using hover)]
    try omega
  · rw [if_neg hover]
    unfold lineCount
    rw [splitNl_joinSep _ (by simp) hall1]
    rw [List.length_map]
    simp only [List.length_append, List.length_map, List.length_take, List.length_cons,
      List.length_nil]
    rw [if_neg (by simpa using hover)]
    omega

/-- C4: the claim states that for more than 200 rows the rendered table is
exactly 200 data lines plus the header and separator plus one summary
line, i.e. 203 lines.  The code additionally pushes an empty string before
the summary (`lines.push('', ...)`), so a 201-row result renders as 204
newline-separated lines (200 data + header + separator + blank + summary),
not 203. -/
theorem buildMarkdownTable_blank_line_cex :
    lineCount (Capped.buildMarkdownTable (List.replicate 201 [("a", JsonVal.num 1)])
        Capped.MAX_TABLE_ROWS) = 204
    ∧ lineCount (Capped.buildMarkdownTable (List.replicate 201 [("a", JsonVal.num 1)])
        Capped.MAX_TABLE_ROWS) ≠ 203 := by
  have hrepl : List.replicate 201 [(("a" : String), JsonVal.num 1)]
      = [(("a" : String), JsonVal.num 1)] :: List.replicate 200 [(("a" : String), JsonVal.num 1)] := by
    rw [← List.replicate_succ]
  have h := table_lineCount [(("a" : String), JsonVal.num 1)]
      (List.replicate 200 [(("a" : String), JsonVal.num 1)]) 200
      (by decide)
      (by
        intro r hr c hc
        rcases List.mem_cons.mp hr with rfl | hr'
        · revert c hc
          decide
        · rw [List.eq_of_mem_replicate hr']
          revert c hc
          decide)
  rw [show Capped.MAX_TABLE_ROWS = 200 from rfl, hrepl]
  rw [h]
  norm_num

/-- C4 (amended): for a nonempty result set of N rows all sharing the
columns of the first row (cells and column names free of newlines), the
capped table renders as exactly N data lines plus one header and one
separator line when N ≤ 200, and as exactly 200 data lines plus the
header and separator plus one blank line and one summary line (204 lines
in all) when N > 200. -/
theorem buildMarkdownTable_line_counts (rows : List Row) (hne : rows ≠ [])
    (hshare : ∀ r ∈ rows, r.map Prod.fst = firstColumns rows)
    (hcols : ∀ c ∈ firstColumns rows, '\n' ∉ c.data)
    (hcells : ∀ r ∈ rows, ∀ c ∈ firstColumns rows,
        '\n' ∉ (Capped.truncateCell (List.lookup c r)).data) :
    lineCount (Capped.buildMarkdownTable rows Capped.MAX_TABLE_ROWS)
      = if rows.length ≤ 200 then rows.length + 2 else 204 := by
  match rows, hne with
  | r0 :: rest, _ =>
    have h := table_lineCount r0 rest 200 hcols hcells
    rw [show Capped.MAX_TABLE_ROWS = 200 from rfl, h]
    by_cases h2 : (r0 :: rest).length ≤ 200
    · rw [if_pos h2, if_neg (by omega)]
      omega
    · rw [if_neg h2, if_pos (by omega)]
      omega

theorem buildMarkdownTable_line_counts_witness :
    lineCount (Capped.buildMarkdownTable
      [[("a", .num 1), ("b", .num 2)], [("a", .num 3), ("b", .num 4)],
       [("a", .num 5), ("b", .num 6)]] Capped.MAX_TABLE_ROWS) = 5 := by
  have h := buildMarkdownTable_line_counts
      [[("a", .num 1), ("b", .num 2)], [("a", .num 3), ("b", .num 4)],
       [("a", .num 5), ("b", .num 6)]]
      (by simp) (by decide) (by decide) (by decide)
  norm_num at h
  exact h

/-! ### Claims about the graph-backend handler -/

/-- C9: when the fetch is cancelled (the thrown error's name is
`AbortError`, which is what the timeout-driven `controller.abort()`
produces), the handler returns an error-flagged response whose text is the
distinct aborted-after-timeout message naming the resolved timeout value,
regardless of the underlying abort message — not a generic network-failure
rendering of the thrown error. -/
theorem graphqlQueryHandler_abort_message (input : Graphql.GqlInput) (msg : String) :
    Graphql.graphqlQueryHandler input (.throws (.err "AbortError" msg))
      = ⟨"GraphQL error: Request aborted after "
          ++ (resolveTimeout input.timeoutMs).render ++ "ms", true⟩ := by
  rw [show ("GraphQL error: Request aborted after " : String)
        = "GraphQL error: " ++ "Request aborted after " from by decide]
  simp [Graphql.graphqlQueryHandler, Graphql.graphqlTryBody, Graphql.isAbortError,
    formatErrorResponse, errMessage, strAppend_assoc]

theorem startsWith_self_append (b c : List Char) : charsStartWith b (b ++ c) = true := by
  induction b with
  | nil => rfl
  | cons x xs ih => simp [charsStartWith, ih]

theorem hasSubstr_of_startsWith (pat l : List Char)
    (h : charsStartWith pat l = true) : hasSubstr pat l = true := by
  cases l with
  | nil => simpa [hasSubstr] using h
  | cons c cs => simp [hasSubstr, h]

theorem hasSubstr_mid (a b c : List Char) : hasSubstr b (a ++ (b ++ c)) = true := by
  induction a with
  | nil => exact hasSubstr_of_startsWith _ _ (by simpa using startsWith_self_append b c)
  | cons x xs ih =>
    simp only [List.cons_append, hasSubstr, Bool.or_eq_true]
    exact Or.inr ih

theorem strIncludes_sandwich (a b c : String) : strIncludes (a ++ b ++ c) b = true := by
  unfold strIncludes
  rw [String.data_append, String.data_append, List.append_assoc]
  exact hasSubstr_mid a.data b.data c.data

/-- C10: for a graph query whose HTTP response is OK and whose body parses
to JSON with a non-empty `errors` array, the handler returns a response
with the error flag set whose text still includes the pretty-serialized
data/errors/timeout payload; when the `errors` field is absent or is an
empty array, the error flag is false.  GraphQL-level errors are thus
surfaced as tool errors even though the HTTP request succeeded. -/
theorem graphqlQueryHandler_errors_flag (input : Graphql.GqlInput) (status : ℚ)
    (statusText : String) (v : JsonVal) :
    (∀ es, getField v "errors" = some (.arr es) → es ≠ [] →
       (Graphql.graphqlQueryHandler input (.response true status statusText (.parsed v))).isError
         = true
       ∧ strIncludes
           (Graphql.graphqlQueryHandler input (.response true status statusText (.parsed v))).text
           (stringifyPretty 0 (.obj
             ((match getField v "data" with
               | none => []
               | some d => [("data", d)])
              ++ [("errors", JsonVal.arr es)]
              ++ [("timeoutMs", jsNumToJson (resolveTimeout input.timeoutMs))]))) = true)
    ∧ ((getField v "errors" = none ∨ getField v "errors" = some (.arr [])) →
       (Graphql.graphqlQueryHandler input (.response true status statusText (.parsed v))).isError
         = false) := by
  constructor
  · intro es herr hne
    have hhe : (match getField v "errors" with
        | some (.arr es') => !es'.isEmpty
        | _ => false) = true := by
      rw [herr]
      cases es with
      | nil => exact absurd rfl hne
      | cons a l => rfl
    constructor
    · simp [Graphql.graphqlQueryHandler, Graphql.graphqlTryBody, herr, hhe]
      exact hne
    · simp only [Graphql.graphqlQueryHandler, Graphql.graphqlTryBody, herr, hhe,
        Bool.not_true, Bool.false_eq_true, if_false, ite_true, ite_false]
      exact strIncludes_sandwich _ _ _
  · intro hcase
    rcases hcase with h | h <;>
      simp [Graphql.graphqlQueryHandler, Graphql.graphqlTryBody, h]

theorem graphqlQueryHandler_errors_flag_witness :
    (Graphql.graphqlQueryHandler ⟨"query Q", none, none, .undefined⟩
       (.response true 200 "OK"
         (.parsed (.obj [("data", .null), ("errors", .arr [.str "boom"])])))).isError = true
    ∧ strIncludes
        (Graphql.graphqlQueryHandler ⟨"query Q", none, none, .undefined⟩
          (.response true 200 "OK"
            (.parsed (.obj [("data", .null), ("errors", .arr [.str "boom"])])))).text
        (stringifyPretty 0 (.obj
          ((match getField (.obj [("data", .null), ("errors", .arr [.str "boom"])]) "data" with
            | none => []
            | some d => [("data", d)])
           ++ [("errors", JsonVal.arr [.str "boom"])]
           ++ [("timeoutMs", jsNumToJson (resolveTimeout JsInput.undefined))]))) = true :=
  (graphqlQueryHandler_errors_flag ⟨"query Q", none, none, .undefined⟩ 200 "OK"
      (.obj [("data", .null), ("errors", .arr [.str "boom"])])).1
    [.str "boom"] rfl (List.cons_ne_nil _ _)

end DevMcp


